import Mathlib

/-!
Verification of the association-lifecycle resource handlers of the
terraform-provider-azurerm corpus: the network-interface/application-security-group
association (Create/Read/Delete), the express-route-circuit authorization
(Create/Delete), the dedicated-host delete poller and the automation job
schedule create loop.  Identifiers are modelled as lists of characters,
remote calls as explicit outcome parameters, and side effects as event traces.
-/

/-- Identifiers and other Go strings are modelled as lists of characters. -/
abbrev Str := List Char

/-- Embedding of Go `strings.Split(s, sep)` for a one-character separator:
`splitOnChar sep s` cuts `s` at every occurrence of `sep`; the empty string
splits into one empty segment, exactly as in Go. -/
def splitOnChar (sep : Char) : Str → List Str
  | [] => [[]]
  | c :: rest =>
    if c = sep then [] :: splitOnChar sep rest
    else
      match splitOnChar sep rest with
      | [] => [[c]]
      | s :: ss => (c :: s) :: ss

/-- The composite-association identifier join used by the Create handlers:
`fmt.Sprintf("%s|%s", idA, idB)`. -/
def joinComposite (a b : Str) : Str := a ++ '|' :: b

/-- The function `splitOnChar` never returns the empty list of segments (Go `strings.Split`
always yields at least one segment). -/
theorem splitOnChar_ne_nil (sep : Char) (s : Str) : splitOnChar sep s ≠ [] := by
  cases s with
  | nil => simp [splitOnChar]
  | cons c rest =>
    simp only [splitOnChar]
    split
    · simp
    · split
      · simp
      · simp

/-- Splitting a separator-free string yields that single segment. -/
theorem splitOnChar_no_sep (sep : Char) (s : Str) (h : sep ∉ s) :
    splitOnChar sep s = [s] := by
  induction s with
  | nil => rfl
  | cons c rest ih =>
    simp only [List.mem_cons, not_or] at h
    simp only [splitOnChar]
    rw [if_neg (fun hc => h.1 hc.symm), ih h.2]

/-- Splitting at the first separator occurrence peels off the separator-free
head segment. -/
theorem splitOnChar_append (sep : Char) (a b : Str) (h : sep ∉ a) :
    splitOnChar sep (a ++ sep :: b) = a :: splitOnChar sep b := by
  induction a with
  | nil => simp [splitOnChar]
  | cons c rest ih =>
    simp only [List.mem_cons, not_or] at h
    simp only [List.cons_append, splitOnChar]
    rw [if_neg (fun hc => h.1 hc.symm)]
    simp only [List.append_eq]
    rw [ih h.2]

/-- A parsed Azure resource identifier: subscription, resource group, provider
namespace and the remaining key/value path segments. -/
structure ResourceID where
  subscriptionID : Str
  resourceGroup : Str
  provider : Str
  path : List (Str × Str)
deriving DecidableEq, Repr

/-- Parses the trailing key/value pairs of a resource path; every key and
value must be non-empty and the segments must pair up. -/
def parsePathPairs : List Str → Option (List (Str × Str))
  | [] => some []
  | [_] => none
  | k :: v :: rest =>
    if k = [] ∨ v = [] then none
    else (parsePathPairs rest).map (fun ps => (k, v) :: ps)

/-- Modelled from the spec: `azure.ParseAzureResourceID` (identifier codec,
`helpers/azure`, not under src).  Parses a hierarchical path of the shape
`/subscriptions/S/resourceGroups/RG/providers/P/k1/v1/...` into a
`ResourceID`; any malformed input is a terminal error (`none`). -/
def parseAzureResourceID (raw : Str) : Option ResourceID :=
  match splitOnChar '/' raw with
  | [] :: sk :: s :: rk :: rg :: pk :: p :: rest =>
    if sk = "subscriptions".data ∧ rk = "resourceGroups".data ∧ pk = "providers".data
        ∧ s ≠ [] ∧ rg ≠ [] ∧ p ≠ [] then
      (parsePathPairs rest).map (fun ps => ⟨s, rg, p, ps⟩)
    else none
  | _ => none

/-- Go map indexing `id.Path[key]`: the value stored under `key`, or the zero
value (the empty string) when the key is absent. -/
def pathLookup (path : List (Str × Str)) (key : Str) : Str :=
  ((path.find? (fun kv => kv.1 == key)).map Prod.snd).getD []

/-- The embedded ip-configuration block of a network interface; the handlers
only inspect the application-security-group membership list it carries. -/
structure IPConfigurations where
  applicationSecurityGroupIDs : List Str
deriving DecidableEq, Repr

/-- Embedding of `network.InterfacePropertiesFormat`: nilable ip configurations. -/
structure InterfacePropertiesFormat where
  ipConfigurations : Option IPConfigurations
deriving DecidableEq, Repr

/-- A remote network interface as returned by `client.Get`: nilable resource
id and nilable properties. -/
structure NetworkInterface where
  id : Option Str
  interfacePropertiesFormat : Option InterfacePropertiesFormat
deriving DecidableEq, Repr

/-- The update-information record produced by the field mapper. -/
structure NetworkInterfaceUpdateInformation where
  applicationSecurityGroupIDs : List Str
deriving DecidableEq, Repr

/-- Modelled from the spec: `parseFieldsFromNetworkInterface` (field mapper,
network-interface helpers, not under src) — extracts the embedded
application-security-group membership list from the interface properties. -/
def parseFieldsFromNetworkInterface (props : InterfacePropertiesFormat) :
    NetworkInterfaceUpdateInformation :=
  ⟨(props.ipConfigurations.map IPConfigurations.applicationSecurityGroupIDs).getD []⟩

/-- Modelled from the spec: `mapFieldsToNetworkInterface` (field mapper,
network-interface helpers, not under src) — writes the updated membership
list back into the interface ip configurations. -/
def mapFieldsToNetworkInterface (_cfgs : IPConfigurations)
    (info : NetworkInterfaceUpdateInformation) : IPConfigurations :=
  ⟨info.applicationSecurityGroupIDs⟩

/-- Modelled from the spec: `utils.SliceContainsValue` (utils package, not
under src) — membership test used for the append-if-absent check. -/
def sliceContainsValue (input : List Str) (value : Str) : Bool :=
  input.contains value

/-- Modelled from the spec: the lock-key namespace constant
`networkInterfaceResourceName` (network-interface resource file, not under
src); an opaque token naming the parent resource type. -/
def networkInterfaceResourceName : Str := "azurerm_network_interface".data

/-- Outcome of a remote `Get` call: not-found error, other transport error,
or a value. -/
inductive GetOutcome (α : Type)
  | notFound
  | transportError
  | ok (val : α)
deriving DecidableEq, Repr

/-- Observable side effects of the association handlers: named-lock
acquire/release and the remote calls against the interfaces client. -/
inductive RemoteEv
  | lockAcquire (name resource : Str)
  | lockRelease (name resource : Str)
  | nicGet (resourceGroup name : Str)
  | nicCreateOrUpdate (resourceGroup name : Str) (cfgs : IPConfigurations)
deriving DecidableEq, Repr

/-- Result of the association Create handler; `removedFromState` and
`created` are the two paths on which the Go function returns nil. -/
inductive AssocCreateResult
  | errParsingId
  | removedFromState
  | errRetrievingInterface
  | errPropertiesNil
  | errIPConfigurationsNil
  | importAsExists (resourceId : Str)
  | errUpdating
  | errWaiting
  | created (resourceId : Str)
deriving DecidableEq, Repr

/-- Whether the Create handler returned a non-nil Go error. -/
def AssocCreateResult.isError : AssocCreateResult → Bool
  | .removedFromState => false
  | .created _ => false
  | _ => true

/-- Embedding of `resourceNetworkInterfaceApplicationSecurityGroupAssociationCreate`
(src/unnamed/part_000, lines 57-119).  `remote` is the outcome of
`client.Get`; `updateAccepted` / `updateCompleted` the outcomes of
`client.CreateOrUpdate` and `future.WaitForCompletionRef`.  Returns the Go
result together with the trace of side effects; the named lock is acquired
after the id parse and released by `defer` on every later exit path.  On the
`created` path the Go function tail-calls the Read handler. -/
def resourceNetworkInterfaceApplicationSecurityGroupAssociationCreate
    (networkInterfaceId applicationSecurityGroupId : Str)
    (remote : GetOutcome NetworkInterface)
    (updateAccepted updateCompleted : Bool) :
    AssocCreateResult × List RemoteEv :=
  match parseAzureResourceID networkInterfaceId with
  | none => (.errParsingId, [])
  | some nicId =>
    let networkInterfaceName := pathLookup nicId.path "networkInterfaces".data
    let resourceGroup := nicId.resourceGroup
    let getEv := RemoteEv.nicGet resourceGroup networkInterfaceName
    let core : AssocCreateResult × List RemoteEv :=
      match remote with
      | .notFound => (.removedFromState, [getEv])
      | .transportError => (.errRetrievingInterface, [getEv])
      | .ok read =>
        match read.interfacePropertiesFormat with
        | none => (.errPropertiesNil, [getEv])
        | some props =>
          match props.ipConfigurations with
          | none => (.errIPConfigurationsNil, [getEv])
          | some cfgs =>
            let info := parseFieldsFromNetworkInterface props
            let resourceId := joinComposite networkInterfaceId applicationSecurityGroupId
            if sliceContainsValue info.applicationSecurityGroupIDs applicationSecurityGroupId then
              (.importAsExists resourceId, [getEv])
            else
              let info2 : NetworkInterfaceUpdateInformation :=
                ⟨info.applicationSecurityGroupIDs ++ [applicationSecurityGroupId]⟩
              let payload := mapFieldsToNetworkInterface cfgs info2
              let putEv := RemoteEv.nicCreateOrUpdate resourceGroup networkInterfaceName payload
              if updateAccepted then
                if updateCompleted then (.created resourceId, [getEv, putEv])
                else (.errWaiting, [getEv, putEv])
              else (.errUpdating, [getEv, putEv])
    (core.1,
      RemoteEv.lockAcquire networkInterfaceName networkInterfaceResourceName
        :: core.2
        ++ [RemoteEv.lockRelease networkInterfaceName networkInterfaceResourceName])

/-- Result of the association Read handler; `removedFromState`,
`associationRemovedFromState` and `ok` are the nil-returning paths. -/
inductive AssocReadResult
  | errIdFormat
  | errParsingId
  | removedFromState
  | errRetrievingInterface
  | errPropertiesNil
  | associationRemovedFromState
  | ok (applicationSecurityGroupId : Str) (networkInterfaceId : Option Str)
deriving DecidableEq, Repr

/-- Whether the Read handler returned a non-nil Go error. -/
def AssocReadResult.isError : AssocReadResult → Bool
  | .errIdFormat => true
  | .errParsingId => true
  | .errRetrievingInterface => true
  | .errPropertiesNil => true
  | _ => false

/-- Embedding of `resourceNetworkInterfaceApplicationSecurityGroupAssociationRead`
(src/unnamed/part_000, lines 121-174).  The stored identifier is split on the
pipe; a segment count other than two is a terminal format error raised before
any remote call. -/
def resourceNetworkInterfaceApplicationSecurityGroupAssociationRead
    (resourceDataId : Str) (remote : GetOutcome NetworkInterface) :
    AssocReadResult × List RemoteEv :=
  match splitOnChar '|' resourceDataId with
  | [nicIdRaw, applicationSecurityGroupId] =>
    (match parseAzureResourceID nicIdRaw with
      | none => (.errParsingId, [])
      | some nicId =>
        let networkInterfaceName := pathLookup nicId.path "networkInterfaces".data
        let resourceGroup := nicId.resourceGroup
        let getEv := RemoteEv.nicGet resourceGroup networkInterfaceName
        match remote with
        | .notFound => (.removedFromState, [getEv])
        | .transportError => (.errRetrievingInterface, [getEv])
        | .ok read =>
          match read.interfacePropertiesFormat with
          | none => (.errPropertiesNil, [getEv])
          | some nicProps =>
            let info := parseFieldsFromNetworkInterface nicProps
            if sliceContainsValue info.applicationSecurityGroupIDs applicationSecurityGroupId then
              (.ok applicationSecurityGroupId read.id, [getEv])
            else (.associationRemovedFromState, [getEv]))
  | _ => (.errIdFormat, [])

/-- Result of the association Delete handler; `deleted` is the only
nil-returning path — in particular a missing parent interface is an error. -/
inductive AssocDeleteResult
  | errIdFormat
  | errParsingId
  | errInterfaceNotFound
  | errRetrievingInterface
  | errPropertiesNil
  | errIPConfigurationsNil
  | errUpdating
  | errWaiting
  | deleted
deriving DecidableEq, Repr

/-- Whether the Delete handler returned a non-nil Go error. -/
def AssocDeleteResult.isError : AssocDeleteResult → Bool
  | .deleted => false
  | _ => true

/-- Embedding of `resourceNetworkInterfaceApplicationSecurityGroupAssociationDelete`
(src/unnamed/part_000, lines 176-237).  The membership list written back is
the original list with every occurrence of the target id filtered out; the
named lock wraps everything from the remote fetch on. -/
def resourceNetworkInterfaceApplicationSecurityGroupAssociationDelete
    (resourceDataId : Str) (remote : GetOutcome NetworkInterface)
    (updateAccepted updateCompleted : Bool) :
    AssocDeleteResult × List RemoteEv :=
  match splitOnChar '|' resourceDataId with
  | [nicIdRaw, applicationSecurityGroupId] =>
    (match parseAzureResourceID nicIdRaw with
      | none => (.errParsingId, [])
      | some nicId =>
        let networkInterfaceName := pathLookup nicId.path "networkInterfaces".data
        let resourceGroup := nicId.resourceGroup
        let getEv := RemoteEv.nicGet resourceGroup networkInterfaceName
        let core : AssocDeleteResult × List RemoteEv :=
          match remote with
          | .notFound => (.errInterfaceNotFound, [getEv])
          | .transportError => (.errRetrievingInterface, [getEv])
          | .ok read =>
            match read.interfacePropertiesFormat with
            | none => (.errPropertiesNil, [getEv])
            | some props =>
              match props.ipConfigurations with
              | none => (.errIPConfigurationsNil, [getEv])
              | some cfgs =>
                let info := parseFieldsFromNetworkInterface props
                let kept :=
                  info.applicationSecurityGroupIDs.filter
                    (fun v => v ≠ applicationSecurityGroupId)
                let payload := mapFieldsToNetworkInterface cfgs ⟨kept⟩
                let putEv := RemoteEv.nicCreateOrUpdate resourceGroup networkInterfaceName payload
                if updateAccepted then
                  if updateCompleted then (.deleted, [getEv, putEv])
                  else (.errWaiting, [getEv, putEv])
                else (.errUpdating, [getEv, putEv])
        (core.1,
          RemoteEv.lockAcquire networkInterfaceName networkInterfaceResourceName
            :: core.2
            ++ [RemoteEv.lockRelease networkInterfaceName networkInterfaceResourceName]))
  | _ => (.errIdFormat, [])

/-- A remote express-route-circuit authorization: nilable resource id. -/
structure ExpressRouteCircuitAuthorization where
  id : Option Str
deriving DecidableEq, Repr

/-- Modelled from the spec: the lock-key namespace constant
`expressRouteCircuitResourceName` (express-route-circuit resource file, not
under src). -/
def expressRouteCircuitResourceName : Str := "azurerm_express_route_circuit".data

/-- Side effects of the express-route authorization handlers. -/
inductive ErEv
  | lockAcquire (name resource : Str)
  | lockRelease (name resource : Str)
  | authGet (resourceGroup circuitName name : Str)
  | authCreateOrUpdate (resourceGroup circuitName name : Str)
  | authDelete (resourceGroup circuitName name : Str)
deriving DecidableEq, Repr

/-- Result of the express-route authorization Create handler.
`derefNilId` marks the nil-pointer dereference `*read.ID` on a read-back
without an id. -/
inductive ErAuthCreateResult
  | errCheckingExisting
  | importAsExists (id : Str)
  | errCreating
  | errWaitingCreate
  | errRetrievingAfterCreate
  | derefNilId
  | created (id : Str)
deriving DecidableEq, Repr

/-- Embedding of `resourceExpressRouteCircuitAuthorizationCreate`
(src/unnamed/part_001, lines 62-108).  `existing` is the outcome of the
pre-create existence check (only consulted when `isNewResource`);
`createAccepted` / `createCompleted` the outcomes of `CreateOrUpdate` and its
wait; `readBack` the final `Get`.  The named lock over the circuit name wraps
the whole body. -/
def resourceExpressRouteCircuitAuthorizationCreate
    (name resourceGroup circuitName : Str) (isNewResource : Bool)
    (existing : GetOutcome ExpressRouteCircuitAuthorization)
    (createAccepted createCompleted : Bool)
    (readBack : GetOutcome ExpressRouteCircuitAuthorization) :
    ErAuthCreateResult × List ErEv :=
  let getEv := ErEv.authGet resourceGroup circuitName name
  let putEv := ErEv.authCreateOrUpdate resourceGroup circuitName name
  let check : Option ErAuthCreateResult × List ErEv :=
    if isNewResource then
      match existing with
      | .transportError => (some .errCheckingExisting, [getEv])
      | .notFound => (none, [getEv])
      | .ok ex =>
        match ex.id with
        | none => (none, [getEv])
        | some i => if i ≠ [] then (some (.importAsExists i), [getEv]) else (none, [getEv])
    else (none, [])
  let core : ErAuthCreateResult × List ErEv :=
    match check.1 with
    | some r => (r, check.2)
    | none =>
      if createAccepted then
        if createCompleted then
          match readBack with
          | .notFound => (.errRetrievingAfterCreate, check.2 ++ [putEv, getEv])
          | .transportError => (.errRetrievingAfterCreate, check.2 ++ [putEv, getEv])
          | .ok read =>
            match read.id with
            | none => (.derefNilId, check.2 ++ [putEv, getEv])
            | some i => (.created i, check.2 ++ [putEv, getEv])
        else (.errWaitingCreate, check.2 ++ [putEv])
      else (.errCreating, check.2 ++ [putEv])
  (core.1,
    ErEv.lockAcquire circuitName expressRouteCircuitResourceName
      :: core.2
      ++ [ErEv.lockRelease circuitName expressRouteCircuitResourceName])

/-- Outcome of a long-running remote call (`Delete` or its completion wait):
an error whose response was a 404, some other error, or success. -/
inductive LroOutcome
  | notFoundErr
  | otherErr
  | ok
deriving DecidableEq, Repr

/-- Result of the express-route authorization Delete handler; `deleted` is
the nil-returning path, reached also when the delete call or its wait
observes a 404. -/
inductive ErAuthDeleteResult
  | errParsingId
  | errDeleting
  | errWaitingDelete
  | deleted
deriving DecidableEq, Repr

/-- Whether the Delete handler returned a non-nil Go error. -/
def ErAuthDeleteResult.isError : ErAuthDeleteResult → Bool
  | .deleted => false
  | _ => true

/-- Embedding of `resourceExpressRouteCircuitAuthorizationDelete`
(src/unnamed/part_001, lines 145-180).  A 404 observed by the delete call or
by the completion wait is treated as success. -/
def resourceExpressRouteCircuitAuthorizationDelete
    (resourceDataId : Str)
    (deleteCall : LroOutcome) (waitCall : LroOutcome) :
    ErAuthDeleteResult × List ErEv :=
  match parseAzureResourceID resourceDataId with
  | none => (.errParsingId, [])
  | some id =>
    let resourceGroup := id.resourceGroup
    let circuitName := pathLookup id.path "expressRouteCircuits".data
    let name := pathLookup id.path "authorizations".data
    let delEv := ErEv.authDelete resourceGroup circuitName name
    let core : ErAuthDeleteResult × List ErEv :=
      match deleteCall with
      | .notFoundErr => (.deleted, [delEv])
      | .otherErr => (.errDeleting, [delEv])
      | .ok =>
        match waitCall with
        | .notFoundErr => (.deleted, [delEv])
        | .otherErr => (.errWaitingDelete, [delEv])
        | .ok => (.deleted, [delEv])
    (core.1,
      ErEv.lockAcquire circuitName expressRouteCircuitResourceName
        :: core.2
        ++ [ErEv.lockRelease circuitName expressRouteCircuitResourceName])

/-- A concrete network-interface identifier used by the witnesses. -/
def nicId1 : Str :=
  "/subscriptions/sub1/resourceGroups/group1/providers/Microsoft.Network/networkInterfaces/nic1".data

/-- The parse of `nicId1`. -/
def nicPid1 : ResourceID :=
  ⟨"sub1".data, "group1".data, "Microsoft.Network".data,
    [("networkInterfaces".data, "nic1".data)]⟩

/-- A concrete application-security-group identifier used by the witnesses. -/
def asgId1 : Str :=
  "/subscriptions/sub1/resourceGroups/group1/providers/Microsoft.Network/applicationSecurityGroups/asg1".data

/-- A second concrete application-security-group identifier. -/
def asgId2 : Str :=
  "/subscriptions/sub1/resourceGroups/group1/providers/Microsoft.Network/applicationSecurityGroups/asg2".data

/-- Claim C1: when the parent network interface exists with non-nil
properties and ip configurations and the application security group id is
absent from the current association list, Create writes back the original
list with that id appended and sets the resource identifier to
`{networkInterfaceId}|{applicationSecurityGroupId}`. -/
theorem assoc_create_appends_and_sets_composite_id
    (networkInterfaceId applicationSecurityGroupId : Str)
    (pid : ResourceID) (read : NetworkInterface)
    (props : InterfacePropertiesFormat) (cfgs : IPConfigurations)
    (hparse : parseAzureResourceID networkInterfaceId = some pid)
    (hprops : read.interfacePropertiesFormat = some props)
    (hcfgs : props.ipConfigurations = some cfgs)
    (habsent : sliceContainsValue cfgs.applicationSecurityGroupIDs applicationSecurityGroupId = false) :
    resourceNetworkInterfaceApplicationSecurityGroupAssociationCreate
        networkInterfaceId applicationSecurityGroupId (.ok read) true true =
      (.created (joinComposite networkInterfaceId applicationSecurityGroupId),
       [RemoteEv.lockAcquire (pathLookup pid.path "networkInterfaces".data)
          networkInterfaceResourceName,
        RemoteEv.nicGet pid.resourceGroup (pathLookup pid.path "networkInterfaces".data),
        RemoteEv.nicCreateOrUpdate pid.resourceGroup
          (pathLookup pid.path "networkInterfaces".data)
          ⟨cfgs.applicationSecurityGroupIDs ++ [applicationSecurityGroupId]⟩,
        RemoteEv.lockRelease (pathLookup pid.path "networkInterfaces".data)
          networkInterfaceResourceName]) := by
  simp [resourceNetworkInterfaceApplicationSecurityGroupAssociationCreate, hparse, hprops,
    hcfgs, habsent, parseFieldsFromNetworkInterface, mapFieldsToNetworkInterface]

/-- Witness for claim C1 at a concrete input: `asg1` absent from an empty
association list is appended and the composite identifier is produced. -/
theorem assoc_create_appends_and_sets_composite_id_witness :
    resourceNetworkInterfaceApplicationSecurityGroupAssociationCreate
        nicId1 asgId1 (.ok ⟨some nicId1, some ⟨some ⟨[]⟩⟩⟩) true true =
      (.created (joinComposite nicId1 asgId1),
       [RemoteEv.lockAcquire (pathLookup nicPid1.path "networkInterfaces".data)
          networkInterfaceResourceName,
        RemoteEv.nicGet nicPid1.resourceGroup (pathLookup nicPid1.path "networkInterfaces".data),
        RemoteEv.nicCreateOrUpdate nicPid1.resourceGroup
          (pathLookup nicPid1.path "networkInterfaces".data) ⟨[] ++ [asgId1]⟩,
        RemoteEv.lockRelease (pathLookup nicPid1.path "networkInterfaces".data)
          networkInterfaceResourceName]) :=
  assoc_create_appends_and_sets_composite_id nicId1 asgId1 nicPid1
    ⟨some nicId1, some ⟨some ⟨[]⟩⟩⟩ ⟨some ⟨[]⟩⟩ ⟨[]⟩ (by decide) rfl rfl (by decide)

/-- Claim C2: when the parent interface exists with a non-nil association
list containing the target id among others, Delete writes back exactly the
original list with every occurrence of that id filtered out (order of the
other entries preserved), releases the named lock last, and returns nil. -/
theorem assoc_delete_filters_list_and_returns_nil
    (resourceDataId nicIdRaw applicationSecurityGroupId : Str)
    (pid : ResourceID) (read : NetworkInterface)
    (props : InterfacePropertiesFormat) (cfgs : IPConfigurations)
    (hsplit : splitOnChar '|' resourceDataId = [nicIdRaw, applicationSecurityGroupId])
    (hparse : parseAzureResourceID nicIdRaw = some pid)
    (hprops : read.interfacePropertiesFormat = some props)
    (hcfgs : props.ipConfigurations = some cfgs)
    (_hmem : applicationSecurityGroupId ∈ cfgs.applicationSecurityGroupIDs) :
    resourceNetworkInterfaceApplicationSecurityGroupAssociationDelete
        resourceDataId (.ok read) true true =
      (.deleted,
       [RemoteEv.lockAcquire (pathLookup pid.path "networkInterfaces".data)
          networkInterfaceResourceName,
        RemoteEv.nicGet pid.resourceGroup (pathLookup pid.path "networkInterfaces".data),
        RemoteEv.nicCreateOrUpdate pid.resourceGroup
          (pathLookup pid.path "networkInterfaces".data)
          ⟨cfgs.applicationSecurityGroupIDs.filter
            (fun v => v ≠ applicationSecurityGroupId)⟩,
        RemoteEv.lockRelease (pathLookup pid.path "networkInterfaces".data)
          networkInterfaceResourceName]) := by
  simp [resourceNetworkInterfaceApplicationSecurityGroupAssociationDelete, hsplit, hparse,
    hprops, hcfgs, parseFieldsFromNetworkInterface, mapFieldsToNetworkInterface]

/-- Witness for claim C2 at a concrete input: deleting `asg1` from the list
`[asg1, asg2]` writes back exactly `[asg2]`, releases the lock, returns nil. -/
theorem assoc_delete_filters_list_and_returns_nil_witness :
    splitOnChar '|' (joinComposite nicId1 asgId1) = [nicId1, asgId1] ∧
    resourceNetworkInterfaceApplicationSecurityGroupAssociationDelete
        (joinComposite nicId1 asgId1) (.ok ⟨some nicId1, some ⟨some ⟨[asgId1, asgId2]⟩⟩⟩)
        true true =
      (.deleted,
       [RemoteEv.lockAcquire (pathLookup nicPid1.path "networkInterfaces".data)
          networkInterfaceResourceName,
        RemoteEv.nicGet nicPid1.resourceGroup (pathLookup nicPid1.path "networkInterfaces".data),
        RemoteEv.nicCreateOrUpdate nicPid1.resourceGroup
          (pathLookup nicPid1.path "networkInterfaces".data)
          ⟨[asgId1, asgId2].filter (fun v => v ≠ asgId1)⟩,
        RemoteEv.lockRelease (pathLookup nicPid1.path "networkInterfaces".data)
          networkInterfaceResourceName]) :=
  ⟨by decide,
    assoc_delete_filters_list_and_returns_nil (joinComposite nicId1 asgId1) nicId1 asgId1
      nicPid1 ⟨some nicId1, some ⟨some ⟨[asgId1, asgId2]⟩⟩⟩ ⟨some ⟨[asgId1, asgId2]⟩⟩
      ⟨[asgId1, asgId2]⟩ (by decide) (by decide) rfl rfl (by decide)⟩

/-- Claim C3 counterexample: the identifier `nicId1 ++ "|"` splits into two
segments the second of which is empty — which the claim says must be
rejected as malformed — yet the Read handler does not fail (it returns nil
after clearing the association from state) and it does perform a remote
call. -/
theorem assoc_read_empty_segment_not_rejected :
    splitOnChar '|' (nicId1 ++ ['|']) = [nicId1, []] ∧
    (resourceNetworkInterfaceApplicationSecurityGroupAssociationRead
        (nicId1 ++ ['|']) (.ok ⟨some nicId1, some ⟨some ⟨[]⟩⟩⟩)).1
      = .associationRemovedFromState ∧
    AssocReadResult.isError .associationRemovedFromState = false ∧
    RemoteEv.nicGet "group1".data "nic1".data ∈
      (resourceNetworkInterfaceApplicationSecurityGroupAssociationRead
        (nicId1 ++ ['|']) (.ok ⟨some nicId1, some ⟨some ⟨[]⟩⟩⟩)).2 := by
  decide

/-- Claim C3 as amended: the Read and Delete handlers reject an identifier
exactly when its pipe split does not yield two segments by count (1 or 3+
segments); the error is raised before any remote call and with no state
change (empty effect trace).  Segment emptiness is not checked: a two-segment
split with an empty segment passes the format check. -/
theorem assoc_read_delete_reject_wrong_segment_count
    (resourceDataId : Str) (remoteR remoteD : GetOutcome NetworkInterface)
    (updateAccepted updateCompleted : Bool)
    (h : (splitOnChar '|' resourceDataId).length ≠ 2) :
    resourceNetworkInterfaceApplicationSecurityGroupAssociationRead
        resourceDataId remoteR = (.errIdFormat, []) ∧
    resourceNetworkInterfaceApplicationSecurityGroupAssociationDelete
        resourceDataId remoteD updateAccepted updateCompleted = (.errIdFormat, []) := by
  rcases hs : splitOnChar '|' resourceDataId with _ | ⟨a, _ | ⟨b, _ | ⟨c, rest⟩⟩⟩
  · simp [resourceNetworkInterfaceApplicationSecurityGroupAssociationRead,
      resourceNetworkInterfaceApplicationSecurityGroupAssociationDelete, hs]
  · simp [resourceNetworkInterfaceApplicationSecurityGroupAssociationRead,
      resourceNetworkInterfaceApplicationSecurityGroupAssociationDelete, hs]
  · exact absurd (by rw [hs]; rfl) h
  · simp [resourceNetworkInterfaceApplicationSecurityGroupAssociationRead,
      resourceNetworkInterfaceApplicationSecurityGroupAssociationDelete, hs]

/-- Witness for the amended claim C3: a pipe-free identifier splits into one
segment and both handlers reject it with no remote call. -/
theorem assoc_read_delete_reject_wrong_segment_count_witness :
    resourceNetworkInterfaceApplicationSecurityGroupAssociationRead
        "x".data GetOutcome.notFound = (.errIdFormat, []) ∧
    resourceNetworkInterfaceApplicationSecurityGroupAssociationDelete
        "x".data GetOutcome.notFound true true = (.errIdFormat, []) :=
  assoc_read_delete_reject_wrong_segment_count "x".data .notFound .notFound true true
    (by decide)

/-- Claim C4: for identifiers containing no pipe character, splitting the
composite `a|b` produced by the Create handlers yields exactly the pair
`(a, b)`: the pipe split is a left inverse of the composite join. -/
theorem split_left_inverse_of_join
    (a b : Str) (ha : '|' ∉ a) (hb : '|' ∉ b) :
    splitOnChar '|' (joinComposite a b) = [a, b] := by
  rw [joinComposite, splitOnChar_append '|' a b ha, splitOnChar_no_sep '|' b hb]

/-- Witness for claim C4 at the concrete identifiers used elsewhere. -/
theorem split_left_inverse_of_join_witness :
    splitOnChar '|' (joinComposite nicId1 asgId1) = [nicId1, asgId1] :=
  split_left_inverse_of_join nicId1 asgId1 (by decide) (by decide)

/-- Claim C5: when the pre-create existence check finds the resource already
present — for the association, the application security group id already in
the parent's membership list; for the standalone authorization, an existing
remote object with a non-empty id — Create returns the ImportAsExists error
and performs no remote mutation (no CreateOrUpdate call appears in the
trace). -/
theorem create_import_as_exists_no_mutation
    (networkInterfaceId applicationSecurityGroupId : Str)
    (pid : ResourceID) (read : NetworkInterface)
    (props : InterfacePropertiesFormat) (cfgs : IPConfigurations)
    (updateAccepted updateCompleted : Bool)
    (hparse : parseAzureResourceID networkInterfaceId = some pid)
    (hprops : read.interfacePropertiesFormat = some props)
    (hcfgs : props.ipConfigurations = some cfgs)
    (hpresent : sliceContainsValue cfgs.applicationSecurityGroupIDs
      applicationSecurityGroupId = true)
    (authName authResourceGroup circuitName : Str)
    (existing : ExpressRouteCircuitAuthorization) (existingId : Str)
    (createAccepted createCompleted : Bool)
    (readBack : GetOutcome ExpressRouteCircuitAuthorization)
    (hexist : existing.id = some existingId) (hne : existingId ≠ []) :
    ((resourceNetworkInterfaceApplicationSecurityGroupAssociationCreate
        networkInterfaceId applicationSecurityGroupId (.ok read)
        updateAccepted updateCompleted).1
      = .importAsExists (joinComposite networkInterfaceId applicationSecurityGroupId) ∧
     (∀ rg n p, RemoteEv.nicCreateOrUpdate rg n p ∉
        (resourceNetworkInterfaceApplicationSecurityGroupAssociationCreate
          networkInterfaceId applicationSecurityGroupId (.ok read)
          updateAccepted updateCompleted).2)) ∧
    ((resourceExpressRouteCircuitAuthorizationCreate authName authResourceGroup
        circuitName true (.ok existing) createAccepted createCompleted readBack).1
      = .importAsExists existingId ∧
     (∀ rg cn n, ErEv.authCreateOrUpdate rg cn n ∉
        (resourceExpressRouteCircuitAuthorizationCreate authName authResourceGroup
          circuitName true (.ok existing) createAccepted createCompleted readBack).2)) := by
  constructor
  · constructor
    · simp [resourceNetworkInterfaceApplicationSecurityGroupAssociationCreate, hparse,
        hprops, hcfgs, hpresent, parseFieldsFromNetworkInterface]
    · intro rg n p
      simp [resourceNetworkInterfaceApplicationSecurityGroupAssociationCreate, hparse,
        hprops, hcfgs, hpresent, parseFieldsFromNetworkInterface]
  · constructor
    · simp [resourceExpressRouteCircuitAuthorizationCreate, hexist, hne]
    · intro rg cn n
      simp [resourceExpressRouteCircuitAuthorizationCreate, hexist, hne]

/-- Witness for claim C5: creating the association when `asg1` is already in
the membership list, and creating the authorization when the remote object
already exists, both yield ImportAsExists with no CreateOrUpdate event. -/
theorem create_import_as_exists_no_mutation_witness :
    ((resourceNetworkInterfaceApplicationSecurityGroupAssociationCreate
        nicId1 asgId1 (.ok ⟨some nicId1, some ⟨some ⟨[asgId1]⟩⟩⟩) true true).1
      = .importAsExists (joinComposite nicId1 asgId1) ∧
     (∀ rg n p, RemoteEv.nicCreateOrUpdate rg n p ∉
        (resourceNetworkInterfaceApplicationSecurityGroupAssociationCreate
          nicId1 asgId1 (.ok ⟨some nicId1, some ⟨some ⟨[asgId1]⟩⟩⟩) true true).2)) ∧
    ((resourceExpressRouteCircuitAuthorizationCreate "auth1".data "group1".data
        "circuit1".data true (.ok ⟨some "existing1".data⟩) true true .notFound).1
      = .importAsExists "existing1".data ∧
     (∀ rg cn n, ErEv.authCreateOrUpdate rg cn n ∉
        (resourceExpressRouteCircuitAuthorizationCreate "auth1".data "group1".data
          "circuit1".data true (.ok ⟨some "existing1".data⟩) true true .notFound).2)) :=
  create_import_as_exists_no_mutation nicId1 asgId1 nicPid1
    ⟨some nicId1, some ⟨some ⟨[asgId1]⟩⟩⟩ ⟨some ⟨[asgId1]⟩⟩ ⟨[asgId1]⟩ true true
    (by decide) rfl rfl (by decide)
    "auth1".data "group1".data "circuit1".data ⟨some "existing1".data⟩
    "existing1".data true true .notFound rfl (by decide)

/-- Claim C6 counterexample: deleting the association when the preceding
fetch of the parent network interface observes NotFound returns an error
("Network Interface was not found!"), not success — the second Delete on the
same identifier does not succeed. -/
theorem assoc_delete_not_found_is_error :
    (resourceNetworkInterfaceApplicationSecurityGroupAssociationDelete
        (joinComposite nicId1 asgId1) .notFound true true).1
      = .errInterfaceNotFound ∧
    AssocDeleteResult.isError .errInterfaceNotFound = true := by
  decide

/-- Claim C6 as amended: for the standalone express-route authorization
Delete, a NotFound observed by the delete call or by its completion wait
returns success (nil), so a second Delete on the same identifier succeeds;
the association Delete instead returns an error when the preceding fetch of
the parent interface observes NotFound, and reaches success only when the
parent exists (the absent membership is then filtered out idempotently). -/
theorem delete_not_found_success_except_assoc_parent
    (authId : Str) (aid : ResourceID) (waitCall : LroOutcome)
    (hparse : parseAzureResourceID authId = some aid)
    (assocId : Str) (nicIdRaw applicationSecurityGroupId : Str) (pid : ResourceID)
    (updateAccepted updateCompleted : Bool)
    (hsplit : splitOnChar '|' assocId = [nicIdRaw, applicationSecurityGroupId])
    (hparse2 : parseAzureResourceID nicIdRaw = some pid) :
    (resourceExpressRouteCircuitAuthorizationDelete authId .notFoundErr waitCall).1
      = .deleted ∧
    (resourceExpressRouteCircuitAuthorizationDelete authId .ok .notFoundErr).1
      = .deleted ∧
    (resourceNetworkInterfaceApplicationSecurityGroupAssociationDelete
        assocId .notFound updateAccepted updateCompleted).1
      = .errInterfaceNotFound := by
  refine ⟨?_, ?_, ?_⟩
  · simp [resourceExpressRouteCircuitAuthorizationDelete, hparse]
  · simp [resourceExpressRouteCircuitAuthorizationDelete, hparse]
  · simp [resourceNetworkInterfaceApplicationSecurityGroupAssociationDelete, hsplit, hparse2]

/-- Witness for the amended claim C6 at concrete identifiers. -/
theorem delete_not_found_success_except_assoc_parent_witness :
    (resourceExpressRouteCircuitAuthorizationDelete nicId1 .notFoundErr .ok).1
      = .deleted ∧
    (resourceExpressRouteCircuitAuthorizationDelete nicId1 .ok .notFoundErr).1
      = .deleted ∧
    (resourceNetworkInterfaceApplicationSecurityGroupAssociationDelete
        (joinComposite nicId1 asgId1) .notFound true true).1
      = .errInterfaceNotFound :=
  delete_not_found_success_except_assoc_parent nicId1 nicPid1 .ok (by decide)
    (joinComposite nicId1 asgId1) nicId1 asgId1 nicPid1 true true
    (by decide) (by decide)

/-- Claim C7 counterexample: when the parent network interface is NotFound
on the pre-mutation fetch, the association Create does not fail — it removes
the resource from state and returns nil. -/
theorem assoc_create_parent_not_found_returns_nil :
    (resourceNetworkInterfaceApplicationSecurityGroupAssociationCreate
        nicId1 asgId1 .notFound true true).1 = .removedFromState ∧
    AssocCreateResult.isError .removedFromState = false := by
  decide

/-- Claim C7 as amended: when the expected parent network interface is
NotFound on the pre-mutation fetch, the association Create clears the
resource identifier from local state and returns success (nil) — it neither
fails nor mutates the remote interface, and the named lock is still
released. -/
theorem assoc_create_parent_not_found_clears_state
    (networkInterfaceId applicationSecurityGroupId : Str) (pid : ResourceID)
    (updateAccepted updateCompleted : Bool)
    (hparse : parseAzureResourceID networkInterfaceId = some pid) :
    resourceNetworkInterfaceApplicationSecurityGroupAssociationCreate
        networkInterfaceId applicationSecurityGroupId .notFound
        updateAccepted updateCompleted =
      (.removedFromState,
       [RemoteEv.lockAcquire (pathLookup pid.path "networkInterfaces".data)
          networkInterfaceResourceName,
        RemoteEv.nicGet pid.resourceGroup (pathLookup pid.path "networkInterfaces".data),
        RemoteEv.lockRelease (pathLookup pid.path "networkInterfaces".data)
          networkInterfaceResourceName]) ∧
    AssocCreateResult.isError .removedFromState = false := by
  constructor
  · simp [resourceNetworkInterfaceApplicationSecurityGroupAssociationCreate, hparse]
  · rfl

/-- Witness for the amended claim C7 at a concrete identifier. -/
theorem assoc_create_parent_not_found_clears_state_witness :
    resourceNetworkInterfaceApplicationSecurityGroupAssociationCreate
        nicId1 asgId1 .notFound true true =
      (.removedFromState,
       [RemoteEv.lockAcquire (pathLookup nicPid1.path "networkInterfaces".data)
          networkInterfaceResourceName,
        RemoteEv.nicGet nicPid1.resourceGroup (pathLookup nicPid1.path "networkInterfaces".data),
        RemoteEv.lockRelease (pathLookup nicPid1.path "networkInterfaces".data)
          networkInterfaceResourceName]) ∧
    AssocCreateResult.isError .removedFromState = false :=
  assoc_create_parent_not_found_clears_state nicId1 asgId1 nicPid1 true true (by decide)

/-- Actions of one lifecycle operation with respect to its named lock:
acquire, one step of the read-modify-write critical section, release. -/
inductive LockAct
  | acq
  | crit
  | rel
deriving DecidableEq, Repr

/-- The critical section: `n` list-mutation steps. -/
def critSection (n : Nat) : List LockAct := List.replicate n .crit

/-- Modelled from the spec: the locking discipline of each Create/Update/
Delete handler (the `internal/locks` registry is not under src) — acquire
the named lock, run the get-modify-put critical section, release. -/
def lockProg (n : Nat) : List LockAct := .acq :: (critSection n ++ [LockAct.rel])

/-- Tag naming one of the two concurrent operations. -/
inductive OpTag
  | opA
  | opB
deriving DecidableEq, Repr

/-- Joint state of two operations sharing one lock key: each operation's
remaining program and the current holder of the lock. -/
structure TwoOpState where
  restA : List LockAct
  restB : List LockAct
  lockHeld : Option Bool
deriving DecidableEq, Repr

/-- Modelled from the spec: one interleaving step of the two operations
under the named-lock registry semantics — `acq` only fires when the lock is
free and records the holder, `rel` only by the holder, `crit` is never
blocked by the machine (mutual exclusion must emerge from program order). -/
inductive LockStep : TwoOpState → OpTag × LockAct → TwoOpState → Prop
  | acqA (a b : List LockAct) :
      LockStep ⟨LockAct.acq :: a, b, none⟩ (.opA, .acq) ⟨a, b, some true⟩
  | critA (a b : List LockAct) (l : Option Bool) :
      LockStep ⟨.crit :: a, b, l⟩ (.opA, .crit) ⟨a, b, l⟩
  | relA (a b : List LockAct) :
      LockStep ⟨.rel :: a, b, some true⟩ (.opA, .rel) ⟨a, b, none⟩
  | acqB (a b : List LockAct) :
      LockStep ⟨a, .acq :: b, none⟩ (.opB, .acq) ⟨a, b, some false⟩
  | critB (a b : List LockAct) (l : Option Bool) :
      LockStep ⟨a, .crit :: b, l⟩ (.opB, .crit) ⟨a, b, l⟩
  | relB (a b : List LockAct) :
      LockStep ⟨a, .rel :: b, some false⟩ (.opB, .rel) ⟨a, b, none⟩

/-- An interleaved execution of the two operations, recording the emitted
trace of (operation, action) events. -/
inductive LockRun : TwoOpState → List (OpTag × LockAct) → TwoOpState → Prop
  | nil (s : TwoOpState) : LockRun s [] s
  | cons {s s2 s3 : TwoOpState} {e : OpTag × LockAct} {tr : List (OpTag × LockAct)} :
      LockStep s e s2 → LockRun s2 tr s3 → LockRun s (e :: tr) s3

/-- Once operation B holds the lock and A is finished, B runs its remaining
body to completion in program order. -/
theorem lockRun_soloB_body (k : Nat) :
    ∀ (tr : List (OpTag × LockAct)) (lf : Option Bool),
      LockRun ⟨[], critSection k ++ [LockAct.rel], some false⟩ tr ⟨[], [], lf⟩ →
      tr = (critSection k ++ [LockAct.rel]).map (Prod.mk OpTag.opB) := by
  induction k with
  | zero =>
    intro tr lf h
    simp only [critSection, List.replicate, List.nil_append] at h ⊢
    cases h with
    | cons hstep hrest =>
      cases hstep
      cases hrest with
      | nil => rfl
      | cons hstep2 _ => cases hstep2
  | succ k ih =>
    intro tr lf h
    simp only [critSection, List.replicate, List.cons_append] at h ⊢
    cases h with
    | cons hstep hrest =>
      cases hstep
      have := ih _ _ hrest
      simp only [critSection] at this
      simp [this]

/-- With A finished, B alone runs its whole program in program order. -/
theorem lockRun_soloB (m : Nat) (tr : List (OpTag × LockAct)) (lf : Option Bool)
    (h : LockRun ⟨[], lockProg m, none⟩ tr ⟨[], [], lf⟩) :
    tr = (lockProg m).map (Prod.mk OpTag.opB) := by
  rw [lockProg] at h
  cases h with
  | cons hstep hrest =>
    cases hstep
    have := lockRun_soloB_body m _ _ hrest
    simp [lockProg, this]

/-- Once operation A holds the lock and B is finished, A runs its remaining
body to completion in program order. -/
theorem lockRun_soloA_body (k : Nat) :
    ∀ (tr : List (OpTag × LockAct)) (lf : Option Bool),
      LockRun ⟨critSection k ++ [LockAct.rel], [], some true⟩ tr ⟨[], [], lf⟩ →
      tr = (critSection k ++ [LockAct.rel]).map (Prod.mk OpTag.opA) := by
  induction k with
  | zero =>
    intro tr lf h
    simp only [critSection, List.replicate, List.nil_append] at h ⊢
    cases h with
    | cons hstep hrest =>
      cases hstep
      cases hrest with
      | nil => rfl
      | cons hstep2 _ => cases hstep2
  | succ k ih =>
    intro tr lf h
    simp only [critSection, List.replicate, List.cons_append] at h ⊢
    cases h with
    | cons hstep hrest =>
      cases hstep
      have := ih _ _ hrest
      simp only [critSection] at this
      simp [this]

/-- With B finished, A alone runs its whole program in program order. -/
theorem lockRun_soloA (m : Nat) (tr : List (OpTag × LockAct)) (lf : Option Bool)
    (h : LockRun ⟨lockProg m, [], none⟩ tr ⟨[], [], lf⟩) :
    tr = (lockProg m).map (Prod.mk OpTag.opA) := by
  rw [lockProg] at h
  cases h with
  | cons hstep hrest =>
    cases hstep
    have := lockRun_soloA_body m _ _ hrest
    simp [lockProg, this]

/-- While A holds the lock and B is still waiting on its initial acquire, A
runs its remaining body to completion before anything else happens. -/
theorem lockRun_holderA (k : Nat) :
    ∀ (b : List LockAct) (tr : List (OpTag × LockAct)) (lf : Option Bool),
      LockRun ⟨critSection k ++ [LockAct.rel], .acq :: b, some true⟩ tr ⟨[], [], lf⟩ →
      ∃ tr2, tr = ((critSection k ++ [LockAct.rel]).map (Prod.mk OpTag.opA)) ++ tr2 ∧
        LockRun ⟨[], .acq :: b, none⟩ tr2 ⟨[], [], lf⟩ := by
  induction k with
  | zero =>
    intro b tr lf h
    simp only [critSection, List.replicate, List.nil_append] at h ⊢
    cases h with
    | cons hstep hrest =>
      cases hstep
      exact ⟨_, rfl, hrest⟩
  | succ k ih =>
    intro b tr lf h
    simp only [critSection, List.replicate, List.cons_append] at h ⊢
    cases h with
    | cons hstep hrest =>
      cases hstep
      obtain ⟨tr2, htr, hrun⟩ := ih b _ _ hrest
      simp only [critSection] at htr
      exact ⟨tr2, by simp [htr], hrun⟩

/-- While B holds the lock and A is still waiting on its initial acquire, B
runs its remaining body to completion before anything else happens. -/
theorem lockRun_holderB (k : Nat) :
    ∀ (a : List LockAct) (tr : List (OpTag × LockAct)) (lf : Option Bool),
      LockRun ⟨LockAct.acq :: a, critSection k ++ [LockAct.rel], some false⟩ tr ⟨[], [], lf⟩ →
      ∃ tr2, tr = ((critSection k ++ [LockAct.rel]).map (Prod.mk OpTag.opB)) ++ tr2 ∧
        LockRun ⟨LockAct.acq :: a, [], none⟩ tr2 ⟨[], [], lf⟩ := by
  induction k with
  | zero =>
    intro a tr lf h
    simp only [critSection, List.replicate, List.nil_append] at h ⊢
    cases h with
    | cons hstep hrest =>
      cases hstep
      exact ⟨_, rfl, hrest⟩
  | succ k ih =>
    intro a tr lf h
    simp only [critSection, List.replicate, List.cons_append] at h ⊢
    cases h with
    | cons hstep hrest =>
      cases hstep
      obtain ⟨tr2, htr, hrun⟩ := ih a _ _ hrest
      simp only [critSection] at htr
      exact ⟨tr2, by simp [htr], hrun⟩

/-- Any complete interleaving of two operations sharing one lock key is one
whole program followed by the other: the critical sections never
interleave. -/
theorem lockRun_serialized (nA nB : Nat) (tr : List (OpTag × LockAct)) (lf : Option Bool)
    (h : LockRun ⟨lockProg nA, lockProg nB, none⟩ tr ⟨[], [], lf⟩) :
    tr = (lockProg nA).map (Prod.mk OpTag.opA) ++ (lockProg nB).map (Prod.mk OpTag.opB) ∨
    tr = (lockProg nB).map (Prod.mk OpTag.opB) ++ (lockProg nA).map (Prod.mk OpTag.opA) := by
  rw [lockProg, lockProg] at h
  cases h with
  | cons hstep hrest =>
    cases hstep with
    | acqA =>
      obtain ⟨tr2, htr, hrun⟩ := lockRun_holderA nA _ _ _ hrest
      have h2 : LockRun ⟨[], lockProg nB, none⟩ tr2 ⟨[], [], lf⟩ := by
        rw [lockProg]; exact hrun
      have := lockRun_soloB nB _ _ h2
      left
      simp [lockProg, htr, this]
    | acqB =>
      obtain ⟨tr2, htr, hrun⟩ := lockRun_holderB nB _ _ _ hrest
      have h2 : LockRun ⟨lockProg nA, [], none⟩ tr2 ⟨[], [], lf⟩ := by
        rw [lockProg]; exact hrun
      have := lockRun_soloA nA _ _ h2
      right
      simp [lockProg, htr, this]

/-- A handler trace releases every lock it acquired, as its last action. -/
def releasesHeldLock (tr : List RemoteEv) : Prop :=
  ∀ n r, RemoteEv.lockAcquire n r ∈ tr → tr.getLast? = some (RemoteEv.lockRelease n r)

/-- A handler trace over circuit events releases every lock it acquired, as
its last action. -/
def erReleasesHeldLock (tr : List ErEv) : Prop :=
  ∀ n r, ErEv.lockAcquire n r ∈ tr → tr.getLast? = some (ErEv.lockRelease n r)

/-- A trace of the shape acquire-core-release with no acquire inside the
core releases its held lock. -/
theorem releasesHeldLock_wrap (nm rs : Str) (core : List RemoteEv)
    (hcore : ∀ n r, RemoteEv.lockAcquire n r ∉ core) :
    releasesHeldLock
      (RemoteEv.lockAcquire nm rs :: core ++ [RemoteEv.lockRelease nm rs]) := by
  intro n r hmem
  have hlast : (RemoteEv.lockAcquire nm rs :: core ++ [RemoteEv.lockRelease nm rs]).getLast?
      = some (RemoteEv.lockRelease nm rs) := by
    rw [show RemoteEv.lockAcquire nm rs :: core ++ [RemoteEv.lockRelease nm rs]
        = (RemoteEv.lockAcquire nm rs :: core) ++ [RemoteEv.lockRelease nm rs] from rfl]
    exact List.getLast?_concat _
  rcases List.mem_cons.mp hmem with heq | hmem2
  · obtain ⟨h1, h2⟩ := RemoteEv.lockAcquire.inj heq.symm
    rw [hlast, h1, h2]
  · rcases List.mem_append.mp hmem2 with hin | hin
    · exact absurd hin (hcore n r)
    · simp at hin

/-- A circuit-event trace of the shape acquire-core-release with no acquire
inside the core releases its held lock. -/
theorem erReleasesHeldLock_wrap (nm rs : Str) (core : List ErEv)
    (hcore : ∀ n r, ErEv.lockAcquire n r ∉ core) :
    erReleasesHeldLock
      (ErEv.lockAcquire nm rs :: core ++ [ErEv.lockRelease nm rs]) := by
  intro n r hmem
  have hlast : (ErEv.lockAcquire nm rs :: core ++ [ErEv.lockRelease nm rs]).getLast?
      = some (ErEv.lockRelease nm rs) := by
    rw [show ErEv.lockAcquire nm rs :: core ++ [ErEv.lockRelease nm rs]
        = (ErEv.lockAcquire nm rs :: core) ++ [ErEv.lockRelease nm rs] from rfl]
    exact List.getLast?_concat _
  rcases List.mem_cons.mp hmem with heq | hmem2
  · obtain ⟨h1, h2⟩ := ErEv.lockAcquire.inj heq.symm
    rw [hlast, h1, h2]
  · rcases List.mem_append.mp hmem2 with hin | hin
    · exact absurd hin (hcore n r)
    · simp at hin

/-- The association Create handler releases its named lock on every exit
path, error paths included. -/
theorem assocCreate_releases (nic asg : Str) (remote : GetOutcome NetworkInterface)
    (u c : Bool) :
    releasesHeldLock
      (resourceNetworkInterfaceApplicationSecurityGroupAssociationCreate
        nic asg remote u c).2 := by
  rcases hp : parseAzureResourceID nic with _ | pid
  · intro n r hmem
    simp [resourceNetworkInterfaceApplicationSecurityGroupAssociationCreate, hp] at hmem
  · simp only [resourceNetworkInterfaceApplicationSecurityGroupAssociationCreate, hp]
    apply releasesHeldLock_wrap
    intro n r
    rcases remote with _ | _ | ⟨rid, _ | ⟨_ | cfgs⟩⟩ <;>
      cases u <;> cases c <;> simp <;>
      by_cases h : sliceContainsValue
        (parseFieldsFromNetworkInterface ⟨some cfgs⟩).applicationSecurityGroupIDs asg <;>
      simp [h]

/-- The association Delete handler releases its named lock on every exit
path, error paths included. -/
theorem assocDelete_releases (rid : Str) (remote : GetOutcome NetworkInterface)
    (u c : Bool) :
    releasesHeldLock
      (resourceNetworkInterfaceApplicationSecurityGroupAssociationDelete
        rid remote u c).2 := by
  rcases hs : splitOnChar '|' rid with _ | ⟨a, _ | ⟨b, _ | ⟨e, rest⟩⟩⟩
  · intro n r hmem
    simp [resourceNetworkInterfaceApplicationSecurityGroupAssociationDelete, hs] at hmem
  · intro n r hmem
    simp [resourceNetworkInterfaceApplicationSecurityGroupAssociationDelete, hs] at hmem
  · rcases hp : parseAzureResourceID a with _ | pid
    · intro n r hmem
      simp [resourceNetworkInterfaceApplicationSecurityGroupAssociationDelete, hs, hp] at hmem
    · simp only [resourceNetworkInterfaceApplicationSecurityGroupAssociationDelete, hs, hp]
      apply releasesHeldLock_wrap
      intro n r
      rcases remote with _ | _ | ⟨rid2, _ | ⟨_ | cfgs⟩⟩ <;>
        cases u <;> cases c <;> simp
  · intro n r hmem
    simp [resourceNetworkInterfaceApplicationSecurityGroupAssociationDelete, hs] at hmem

/-- The authorization Create handler releases its named lock on every exit
path, error paths included. -/
theorem erCreate_releases (name resourceGroup circuitName : Str) (isNew : Bool)
    (existing : GetOutcome ExpressRouteCircuitAuthorization)
    (ca cc : Bool) (readBack : GetOutcome ExpressRouteCircuitAuthorization) :
    erReleasesHeldLock
      (resourceExpressRouteCircuitAuthorizationCreate name resourceGroup circuitName
        isNew existing ca cc readBack).2 := by
  simp only [resourceExpressRouteCircuitAuthorizationCreate]
  apply erReleasesHeldLock_wrap
  intro n r
  rcases existing with _ | _ | ⟨_ | exid⟩ <;>
    rcases readBack with _ | _ | ⟨_ | rbid⟩ <;>
    cases isNew <;> cases ca <;> cases cc <;> simp
  all_goals by_cases h : exid = [] <;> simp [h]

/-- The authorization Delete handler releases its named lock on every exit
path, error paths included. -/
theorem erDelete_releases (rid : Str) (dc wc : LroOutcome) :
    erReleasesHeldLock
      (resourceExpressRouteCircuitAuthorizationDelete rid dc wc).2 := by
  rcases hp : parseAzureResourceID rid with _ | pid
  · intro n r hmem
    simp [resourceExpressRouteCircuitAuthorizationDelete, hp] at hmem
  · simp only [resourceExpressRouteCircuitAuthorizationDelete, hp]
    apply erReleasesHeldLock_wrap
    intro n r
    rcases dc with _ | _ | _ <;> rcases wc with _ | _ | _ <;> simp

/-- Claim C8: two concurrent operations acquiring the same named lock key
serialize completely — every valid interleaved execution is one operation's
whole acquire-mutate-release program followed by the other's, so their
list-mutation critical sections never interleave; and each of the four
locking handlers releases its named lock as the last action of every exit
path, error paths included. -/
theorem named_lock_serializes_and_released_on_every_exit :
    (∀ (nA nB : Nat) (tr : List (OpTag × LockAct)) (lf : Option Bool),
      LockRun ⟨lockProg nA, lockProg nB, none⟩ tr ⟨[], [], lf⟩ →
      tr = (lockProg nA).map (Prod.mk OpTag.opA) ++ (lockProg nB).map (Prod.mk OpTag.opB) ∨
      tr = (lockProg nB).map (Prod.mk OpTag.opB) ++ (lockProg nA).map (Prod.mk OpTag.opA)) ∧
    (∀ (nic asg : Str) (remote : GetOutcome NetworkInterface) (u c : Bool),
      releasesHeldLock
        (resourceNetworkInterfaceApplicationSecurityGroupAssociationCreate
          nic asg remote u c).2) ∧
    (∀ (rid : Str) (remote : GetOutcome NetworkInterface) (u c : Bool),
      releasesHeldLock
        (resourceNetworkInterfaceApplicationSecurityGroupAssociationDelete
          rid remote u c).2) ∧
    (∀ (name resourceGroup circuitName : Str) (isNew : Bool)
        (existing : GetOutcome ExpressRouteCircuitAuthorization) (ca cc : Bool)
        (readBack : GetOutcome ExpressRouteCircuitAuthorization),
      erReleasesHeldLock
        (resourceExpressRouteCircuitAuthorizationCreate name resourceGroup circuitName
          isNew existing ca cc readBack).2) ∧
    (∀ (rid : Str) (dc wc : LroOutcome),
      erReleasesHeldLock (resourceExpressRouteCircuitAuthorizationDelete rid dc wc).2) :=
  ⟨lockRun_serialized, assocCreate_releases, assocDelete_releases,
    erCreate_releases, erDelete_releases⟩

/-- Witness for claim C8: a concrete complete interleaving of two one-step
critical sections is fully serialized, and a concrete error-path Create
trace ends by releasing the lock it acquired. -/
theorem named_lock_serializes_and_released_on_every_exit_witness :
    ([((OpTag.opA : OpTag), LockAct.acq), (OpTag.opA, LockAct.crit), (OpTag.opA, LockAct.rel),
      (OpTag.opB, LockAct.acq), (OpTag.opB, LockAct.crit), (OpTag.opB, LockAct.rel)]
        = (lockProg 1).map (Prod.mk OpTag.opA) ++ (lockProg 1).map (Prod.mk OpTag.opB) ∨
     [((OpTag.opA : OpTag), LockAct.acq), (OpTag.opA, LockAct.crit), (OpTag.opA, LockAct.rel),
      (OpTag.opB, LockAct.acq), (OpTag.opB, LockAct.crit), (OpTag.opB, LockAct.rel)]
        = (lockProg 1).map (Prod.mk OpTag.opB) ++ (lockProg 1).map (Prod.mk OpTag.opA)) ∧
    (resourceNetworkInterfaceApplicationSecurityGroupAssociationCreate
        nicId1 asgId1 .transportError true true).2.getLast?
      = some (RemoteEv.lockRelease "nic1".data networkInterfaceResourceName) :=
  ⟨named_lock_serializes_and_released_on_every_exit.1 1 1 _ none
      (LockRun.cons (LockStep.acqA _ _)
        (LockRun.cons (LockStep.critA _ _ _)
          (LockRun.cons (LockStep.relA _ _)
            (LockRun.cons (LockStep.acqB _ _)
              (LockRun.cons (LockStep.critB _ _ _)
                (LockRun.cons (LockStep.relB _ _) (LockRun.nil _))))))),
    named_lock_serializes_and_released_on_every_exit.2.1 nicId1 asgId1 .transportError
      true true "nic1".data networkInterfaceResourceName (by decide)⟩

/-- A remote dedicated host; the poller only needs its existence. -/
structure DedicatedHost where
  id : Option Str
deriving DecidableEq, Repr

/-- The two poll states named by the dedicated-host delete configuration:
`"Exists"` (pending) and `"NotFound"` (target). -/
inductive HostPollState
  | hostExists
  | hostNotFound
deriving DecidableEq, Repr

/-- Embedding of `dedicatedHostDeletedRefreshFunc`
(src/internal/services/compute/dedicated_host_resource.go, lines 304-317):
a NotFound response maps to the target state, any other error aborts the
poll, a successful read maps to the pending state. -/
def dedicatedHostDeletedRefreshFunc (res : GetOutcome DedicatedHost) :
    Except Unit HostPollState :=
  match res with
  | .notFound => .ok .hostNotFound
  | .transportError => .error ()
  | .ok _ => .ok .hostExists

/-- The poll configuration fields used by the manual delete-confirmation
wait. -/
structure StateChangeConf where
  pending : List HostPollState
  target : List HostPollState
  continuousTargetOccurence : Nat
deriving DecidableEq, Repr

/-- Embedding of the `pluginsdk.StateChangeConf` literal of
`resourceDedicatedHostDelete`
(src/internal/services/compute/dedicated_host_resource.go, lines 288-295):
pending `["Exists"]`, target `["NotFound"]`, twenty consecutive target
observations required. -/
def dedicatedHostDeleteStateConf : StateChangeConf :=
  ⟨[.hostExists], [.hostNotFound], 20⟩

/-- Modelled from the spec: the plugin SDK `WaitForStateContext` poller
(terraform-plugin-sdk, not under src) — walk the observation stream keeping
a counter of consecutive target observations; a target observation bumps it
and declares success once the configured count is reached, any pending
observation resets it to zero, and exhausting the stream (the timeout bound)
is failure. -/
def waitForState (conf : StateChangeConf) : List HostPollState → Nat → Bool
  | [], _ => false
  | o :: rest, c =>
    if conf.target.contains o then
      if conf.continuousTargetOccurence ≤ c + 1 then true
      else waitForState conf rest (c + 1)
    else waitForState conf rest 0

/-- The counter evolution of one poll step under the dedicated-host
configuration. -/
def pollStep (c : Nat) (o : HostPollState) : Nat :=
  if dedicatedHostDeleteStateConf.target.contains o then c + 1 else 0

/-- A long-enough run of target observations at the head of the stream makes
the dedicated-host wait succeed. -/
theorem waitForState_true_of_run (k : Nat) :
    ∀ (c : Nat) (rest : List HostPollState),
      20 ≤ c + k → 0 < k →
      waitForState dedicatedHostDeleteStateConf
        (List.replicate k .hostNotFound ++ rest) c = true := by
  induction k with
  | zero => intro c rest _ h0; exact absurd h0 (by omega)
  | succ k ih =>
    intro c rest h20 _
    simp only [List.replicate_succ, List.cons_append, waitForState,
      dedicatedHostDeleteStateConf]
    by_cases h1 : 20 ≤ c + 1
    · simp [h1]
    · have hk : 0 < k := by omega
      have h20b : 20 ≤ (c + 1) + k := by omega
      have := ih (c + 1) rest h20b hk
      simp only [dedicatedHostDeleteStateConf] at this
      simp [h1, this]

/-- The dedicated-host wait over a split stream either succeeds inside the
first part or continues on the second part with the folded counter. -/
theorem waitForState_split (p : List HostPollState) :
    ∀ (c : Nat) (rest : List HostPollState),
      waitForState dedicatedHostDeleteStateConf (p ++ rest) c = true ∨
      waitForState dedicatedHostDeleteStateConf (p ++ rest) c =
        waitForState dedicatedHostDeleteStateConf rest (p.foldl pollStep c) := by
  induction p with
  | nil => intro c rest; right; rfl
  | cons o p ih =>
    intro c rest
    cases o with
    | hostNotFound =>
      by_cases h1 : 20 ≤ c + 1
      · left
        simp [waitForState, dedicatedHostDeleteStateConf, h1]
      · have := ih (c + 1) rest
        rcases this with h | h
        · left
          simp only [List.cons_append, waitForState, dedicatedHostDeleteStateConf]
          simp only [List.contains_cons, beq_self_eq_true, Bool.true_or, if_true]
          rw [if_neg h1]
          exact h
        · right
          simp only [List.cons_append, waitForState, dedicatedHostDeleteStateConf]
          simp only [dedicatedHostDeleteStateConf] at h
          simp [h1, h, List.foldl_cons, pollStep, dedicatedHostDeleteStateConf]
    | hostExists =>
      have := ih 0 rest
      rcases this with h | h
      · left
        simp only [List.cons_append, waitForState, dedicatedHostDeleteStateConf]
        simp only [List.contains_cons, beq_iff_eq, List.contains_nil]
        rw [if_neg (by simp)]
        exact h
      · right
        simp only [List.cons_append, waitForState, dedicatedHostDeleteStateConf]
        simp only [dedicatedHostDeleteStateConf] at h
        simp [h, List.foldl_cons, pollStep, dedicatedHostDeleteStateConf]

/-- If the dedicated-host wait succeeds, the stream contains either a
head run of targets long enough together with the starting counter, or
twenty consecutive targets somewhere. -/
theorem waitForState_forward (obs : List HostPollState) :
    ∀ (c : Nat),
      waitForState dedicatedHostDeleteStateConf obs c = true →
      (∃ k, 20 ≤ c + k ∧ 0 < k ∧
        ∃ u, List.replicate k HostPollState.hostNotFound ++ u = obs) ∨
      (∃ s t, obs = s ++ List.replicate 20 HostPollState.hostNotFound ++ t) := by
  induction obs with
  | nil => intro c h; simp [waitForState] at h
  | cons o rest ih =>
    intro c h
    cases o with
    | hostNotFound =>
      by_cases h1 : 20 ≤ c + 1
      · left
        exact ⟨1, by omega, by omega, rest, by simp⟩
      · simp only [waitForState, dedicatedHostDeleteStateConf] at h
        simp only [List.contains_cons, beq_self_eq_true, Bool.true_or, if_true] at h
        rw [if_neg h1] at h
        rcases ih (c + 1) h with ⟨k, h20, hk, u, hu⟩ | ⟨s, t, hst⟩
        · left
          exact ⟨k + 1, by omega, by omega, u, by
            simp only [List.replicate_succ, List.cons_append, hu]⟩
        · right
          exact ⟨.hostNotFound :: s, t, by simp [hst]⟩
    | hostExists =>
      simp only [waitForState, dedicatedHostDeleteStateConf] at h
      simp only [List.contains_cons, beq_iff_eq, List.contains_nil] at h
      simp only [show (HostPollState.hostExists == HostPollState.hostNotFound) = false
        from rfl, Bool.false_or] at h
      rw [if_neg (by simp)] at h
      rcases ih 0 h with ⟨k, h20, hk, u, hu⟩ | ⟨s, t, hst⟩
      · right
        refine ⟨[.hostExists], List.replicate (k - 20) HostPollState.hostNotFound ++ u, ?_⟩
        have hk20 : k = 20 + (k - 20) := by omega
        rw [show rest = List.replicate k HostPollState.hostNotFound ++ u from hu.symm,
          hk20, List.replicate_add]
        simp
      · right
        exact ⟨.hostExists :: s, t, by simp [hst]⟩

/-- Claim C9: the manual delete-confirmation poller declares success exactly
when the observation stream contains a run of twenty consecutive Target
(resource-absent) observations — the configured count of the dedicated-host
delete configuration; any Pending observation breaks such a run (in
particular a Pending after five consecutive Targets restarts the wait from
scratch); an exhausted stream (the timeout bound) is failure; and the
refresh function classifies NotFound as Target and a live read as Pending. -/
theorem dedicated_host_delete_poller_consecutive_targets :
    (∀ obs : List HostPollState,
      waitForState dedicatedHostDeleteStateConf obs 0 = true ↔
      ∃ s t, obs = s ++ List.replicate
        dedicatedHostDeleteStateConf.continuousTargetOccurence
        HostPollState.hostNotFound ++ t) ∧
    (∀ rest : List HostPollState,
      waitForState dedicatedHostDeleteStateConf
        ([.hostExists, .hostExists] ++ List.replicate 5 .hostNotFound
          ++ [.hostExists] ++ rest) 0 =
      waitForState dedicatedHostDeleteStateConf rest 0) ∧
    waitForState dedicatedHostDeleteStateConf [] 0 = false ∧
    dedicatedHostDeletedRefreshFunc .notFound = .ok .hostNotFound ∧
    dedicatedHostDeletedRefreshFunc (.ok ⟨none⟩) = .ok .hostExists := by
  refine ⟨?_, ?_, rfl, rfl, rfl⟩
  · intro obs
    constructor
    · intro h
      rcases waitForState_forward obs 0 h with ⟨k, h20, _, u, hu⟩ | ⟨s, t, hst⟩
      · refine ⟨[], List.replicate (k - 20) HostPollState.hostNotFound ++ u, ?_⟩
        have hk20 : k = 20 + (k - 20) := by omega
        rw [show obs = List.replicate k HostPollState.hostNotFound ++ u from hu.symm,
          hk20, List.replicate_add]
        simp [dedicatedHostDeleteStateConf]
      · exact ⟨s, t, hst⟩
    · rintro ⟨s, t, hst⟩
      rw [hst]
      rcases waitForState_split s 0
          (List.replicate dedicatedHostDeleteStateConf.continuousTargetOccurence
            HostPollState.hostNotFound ++ t) with h | h
      · rw [← List.append_assoc] at h
        exact h
      · rw [← List.append_assoc] at h
        rw [h]
        exact waitForState_true_of_run 20 (s.foldl pollStep 0) t (by omega) (by omega)
  · intro rest
    rfl

/-- Witness for claim C9 at concrete streams: a stream of exactly twenty
consecutive NotFound observations succeeds, and one Exists observation after
five NotFound observations resets the wait on an otherwise empty stream,
yielding failure. -/
theorem dedicated_host_delete_poller_consecutive_targets_witness :
    waitForState dedicatedHostDeleteStateConf
      (List.replicate 20 HostPollState.hostNotFound) 0 = true ∧
    waitForState dedicatedHostDeleteStateConf
      ([.hostExists, .hostExists] ++ List.replicate 5 .hostNotFound
        ++ [.hostExists] ++ []) 0 = false :=
  ⟨(dedicated_host_delete_poller_consecutive_targets.1
      (List.replicate 20 HostPollState.hostNotFound)).mpr
      ⟨[], [], by simp [dedicatedHostDeleteStateConf]⟩,
    by rw [dedicated_host_delete_poller_consecutive_targets.2.1 []]; rfl⟩

/-- A job-schedule uuid; kept as a string since only parse success matters
here. -/
abbrev UUID := Str

/-- Embedding of `automation.ScheduleAssociationProperty`: nilable schedule name. -/
structure ScheduleAssociationProperty where
  name : Option Str
deriving DecidableEq, Repr

/-- Embedding of `automation.RunbookAssociationProperty`: nilable runbook name. -/
structure RunbookAssociationProperty where
  name : Option Str
deriving DecidableEq, Repr

/-- Embedding of `automation.JobScheduleProperties` as inspected by the create loop; the
schedule and runbook associations are taken as populated, as the list API
returns them. -/
structure JobScheduleProperties where
  schedule : ScheduleAssociationProperty
  runbook : RunbookAssociationProperty
deriving DecidableEq, Repr

/-- One entry of the automation-account job-schedule listing. -/
structure JobSchedule where
  jobScheduleProperties : Option JobScheduleProperties
  jobScheduleID : Option Str
deriving DecidableEq, Repr

/-- The match test of the create loop: non-nil properties whose schedule
name and runbook name both equal the requested pair. -/
def jobScheduleMatches (scheduleName runbookName : Str) (js : JobSchedule) : Bool :=
  match js.jobScheduleProperties with
  | none => false
  | some p =>
    p.schedule.name == some scheduleName && p.runbook.name == some runbookName

/-- Errors of the sibling-deletion loop inside the job-schedule Create. -/
inductive JobScheduleLoopError
  | errNilOrEmptyId
  | errParsingId
  | errDeleting
deriving DecidableEq, Repr

/-- Embedding of the sibling-deletion loop of `resourceAutomationJobScheduleCreate`
(src/unnamed/part_003, lines 122-143): walk the listed job schedules of the
automation account; every entry matching the requested schedule/runbook pair
must carry a non-nil, non-empty, parseable job schedule id and is deleted
remotely; the ids deleted are returned in listing order.  `parseUUID`
abstracts the third-party `uuid.FromString`, `deleteOk` the outcome of the
remote `client.Delete`. -/
def deleteLinkedJobSchedules (parseUUID : Str → Option UUID) (deleteOk : UUID → Bool)
    (scheduleName runbookName : Str) :
    List JobSchedule → Except JobScheduleLoopError (List UUID)
  | [] => .ok []
  | js :: rest =>
    if jobScheduleMatches scheduleName runbookName js then
      match js.jobScheduleID with
      | none => .error .errNilOrEmptyId
      | some i =>
        if i = [] then .error .errNilOrEmptyId
        else
          match parseUUID i with
          | none => .error .errParsingId
          | some u =>
            if deleteOk u then
              (deleteLinkedJobSchedules parseUUID deleteOk scheduleName runbookName
                rest).map (fun us => u :: us)
            else .error .errDeleting
    else deleteLinkedJobSchedules parseUUID deleteOk scheduleName runbookName rest

/-- The remote object returned by the pre-create existence check. -/
structure AutomationJobSchedule where
  id : Option Str
deriving DecidableEq, Repr

/-- Result of the job-schedule Create handler. -/
inductive JobScheduleCreateResult
  | errCheckingExisting
  | importAsExists (id : Str)
  | errLoop (e : JobScheduleLoopError)
  | errCreating
  | created
deriving DecidableEq, Repr

/-- Embedding of `resourceAutomationJobScheduleCreate`
(src/unnamed/part_003, lines 86-176, control skeleton): the new-resource
existence check, then the sibling-deletion loop, then the create call.
Returns the result together with the sibling job-schedule ids deleted by a
run that reached the create call. -/
def resourceAutomationJobScheduleCreate
    (parseUUID : Str → Option UUID) (deleteOk : UUID → Bool)
    (scheduleName runbookName : Str) (isNewResource : Bool)
    (existing : GetOutcome AutomationJobSchedule)
    (listed : List JobSchedule) (createOk : Bool) :
    JobScheduleCreateResult × List UUID :=
  let check : Option JobScheduleCreateResult :=
    if isNewResource then
      match existing with
      | .transportError => some .errCheckingExisting
      | .notFound => none
      | .ok ex =>
        match ex.id with
        | none => none
        | some i => if i ≠ [] then some (.importAsExists i) else none
    else none
  match check with
  | some r => (r, [])
  | none =>
    match deleteLinkedJobSchedules parseUUID deleteOk scheduleName runbookName listed with
    | .error e => (.errLoop e, [])
    | .ok us => if createOk then (.created, us) else (.errCreating, us)

/-- When every matching listed entry carries a good id and its delete
succeeds, the loop deletes exactly the matching entries, in order. -/
theorem deleteLinkedJobSchedules_ok (parseUUID : Str → Option UUID)
    (deleteOk : UUID → Bool) (scheduleName runbookName : Str) :
    ∀ listed : List JobSchedule,
      (∀ js ∈ listed, jobScheduleMatches scheduleName runbookName js = true →
        ∃ i u, js.jobScheduleID = some i ∧ i ≠ [] ∧ parseUUID i = some u ∧
          deleteOk u = true) →
      deleteLinkedJobSchedules parseUUID deleteOk scheduleName runbookName listed =
        .ok ((listed.filter (jobScheduleMatches scheduleName runbookName)).filterMap
          (fun js => js.jobScheduleID.bind parseUUID)) := by
  intro listed
  induction listed with
  | nil => intro _; rfl
  | cons js rest ih =>
    intro hall
    have hrest := ih (fun j hj hmj => hall j (by simp [hj]) hmj)
    by_cases hm : jobScheduleMatches scheduleName runbookName js = true
    · obtain ⟨i, u, hid, hne, hp, hd⟩ := hall js (by simp) hm
      simp only [deleteLinkedJobSchedules, hm, if_true, hid]
      rw [if_neg hne]
      simp only [hp]
      rw [if_pos hd, hrest]
      simp [List.filter_cons, hm, List.filterMap_cons, hid, hp]
      rfl
    · simp only [deleteLinkedJobSchedules]
      rw [if_neg hm, hrest]
      simp [List.filter_cons, hm]

/-- If some matching listed entry has a nil or empty job schedule id, the
loop fails. -/
theorem deleteLinkedJobSchedules_err (parseUUID : Str → Option UUID)
    (deleteOk : UUID → Bool) (scheduleName runbookName : Str) :
    ∀ listed : List JobSchedule,
      (∃ js ∈ listed, jobScheduleMatches scheduleName runbookName js = true ∧
        (js.jobScheduleID = none ∨ js.jobScheduleID = some [])) →
      ∃ e, deleteLinkedJobSchedules parseUUID deleteOk scheduleName runbookName listed =
        .error e := by
  intro listed
  induction listed with
  | nil => rintro ⟨js, hj, _⟩; cases hj
  | cons js rest ih =>
    rintro ⟨w, hw, hmw, hbad⟩
    rcases List.mem_cons.mp hw with rfl | hwrest
    · rcases hbad with hid | hid
      · exact ⟨.errNilOrEmptyId, by
          simp [deleteLinkedJobSchedules, hmw, hid]⟩
      · exact ⟨.errNilOrEmptyId, by
          simp [deleteLinkedJobSchedules, hmw, hid]⟩
    · by_cases hm : jobScheduleMatches scheduleName runbookName js = true
      · cases hid : js.jobScheduleID with
        | none =>
          exact ⟨.errNilOrEmptyId, by
            simp [deleteLinkedJobSchedules, hm, hid]⟩
        | some i =>
          by_cases hi : i = []
          · exact ⟨.errNilOrEmptyId, by
              simp [deleteLinkedJobSchedules, hm, hid, hi]⟩
          · cases hp : parseUUID i with
            | none =>
              exact ⟨.errParsingId, by
                simp only [deleteLinkedJobSchedules, hm, if_true, hid]
                rw [if_neg hi]
                simp only [hp]⟩
            | some u =>
              by_cases hd : deleteOk u = true
              · obtain ⟨e, he⟩ := ih ⟨w, hwrest, hmw, hbad⟩
                exact ⟨e, by
                  simp only [deleteLinkedJobSchedules, hm, if_true, hid]
                  rw [if_neg hi]
                  simp only [hp]
                  rw [if_pos hd, he]
                  rfl⟩
              · exact ⟨.errDeleting, by
                  simp only [deleteLinkedJobSchedules, hm, if_true, hid]
                  rw [if_neg hi]
                  simp only [hp]
                  rw [if_neg hd]⟩
      · obtain ⟨e, he⟩ := ih ⟨w, hwrest, hmw, hbad⟩
        exact ⟨e, by
          simp only [deleteLinkedJobSchedules]
          rw [if_neg hm]
          exact he⟩

/-- Claim C10: before creating a new automation job schedule, Create walks
the automation account's job-schedule listing and deletes every entry whose
schedule name and runbook name both equal the requested pair — a successful
Create reports exactly the matching entries as remotely deleted — and Create
fails when any listed matching entry has a nil or empty job schedule id. -/
theorem automation_job_schedule_create_deletes_matching_siblings
    (parseUUID : Str → Option UUID) (deleteOk : UUID → Bool)
    (scheduleName runbookName : Str) (listed : List JobSchedule) :
    ((∀ js ∈ listed, jobScheduleMatches scheduleName runbookName js = true →
        ∃ i u, js.jobScheduleID = some i ∧ i ≠ [] ∧ parseUUID i = some u ∧
          deleteOk u = true) →
      resourceAutomationJobScheduleCreate parseUUID deleteOk scheduleName runbookName
          true .notFound listed true =
        (.created, (listed.filter (jobScheduleMatches scheduleName runbookName)).filterMap
          (fun js => js.jobScheduleID.bind parseUUID))) ∧
    ((∃ js ∈ listed, jobScheduleMatches scheduleName runbookName js = true ∧
        (js.jobScheduleID = none ∨ js.jobScheduleID = some [])) →
      ∃ e, resourceAutomationJobScheduleCreate parseUUID deleteOk scheduleName
          runbookName true .notFound listed true = (.errLoop e, [])) := by
  constructor
  · intro hall
    have h := deleteLinkedJobSchedules_ok parseUUID deleteOk scheduleName runbookName
      listed hall
    simp [resourceAutomationJobScheduleCreate, h]
  · intro hex
    obtain ⟨e, he⟩ := deleteLinkedJobSchedules_err parseUUID deleteOk scheduleName
      runbookName listed hex
    exact ⟨e, by simp [resourceAutomationJobScheduleCreate, he]⟩

/-- Witness for claim C10: a listing with one matching entry carrying a good
id and one entry without properties yields a created result having deleted
exactly the matching id; a listing whose matching entry has a nil id makes
Create fail. -/
theorem automation_job_schedule_create_deletes_matching_siblings_witness :
    resourceAutomationJobScheduleCreate (fun i => some i) (fun _ => true)
        "sched1".data "runbook1".data true .notFound
        [⟨some ⟨⟨some "sched1".data⟩, ⟨some "runbook1".data⟩⟩, some "id1".data⟩,
         ⟨none, none⟩] true =
      (.created,
        (([⟨some ⟨⟨some "sched1".data⟩, ⟨some "runbook1".data⟩⟩, some "id1".data⟩,
           ⟨none, none⟩] : List JobSchedule).filter
            (jobScheduleMatches "sched1".data "runbook1".data)).filterMap
          (fun js => js.jobScheduleID.bind (fun i => some i))) ∧
    (∃ e, resourceAutomationJobScheduleCreate (fun i => some i) (fun _ => true)
        "sched1".data "runbook1".data true .notFound
        [⟨some ⟨⟨some "sched1".data⟩, ⟨some "runbook1".data⟩⟩, none⟩] true =
      (.errLoop e, [])) :=
  ⟨(automation_job_schedule_create_deletes_matching_siblings (fun i => some i)
      (fun _ => true) "sched1".data "runbook1".data
      [⟨some ⟨⟨some "sched1".data⟩, ⟨some "runbook1".data⟩⟩, some "id1".data⟩,
       ⟨none, none⟩]).1
      (by
        intro js hjs hm
        rcases List.mem_cons.mp hjs with rfl | hjs2
        · exact ⟨"id1".data, "id1".data, rfl, by decide, rfl, rfl⟩
        · rcases List.mem_cons.mp hjs2 with rfl | h
          · exact absurd hm (by decide)
          · cases h),
    (automation_job_schedule_create_deletes_matching_siblings (fun i => some i)
      (fun _ => true) "sched1".data "runbook1".data
      [⟨some ⟨⟨some "sched1".data⟩, ⟨some "runbook1".data⟩⟩, none⟩]).2
      ⟨⟨some ⟨⟨some "sched1".data⟩, ⟨some "runbook1".data⟩⟩, none⟩, by simp,
        by decide, Or.inl rfl⟩⟩
